import Mathlib

/-!
Verification of the test-execution and retry orchestration engine of the
llm-structured-output-benchmark repository.

The TypeScript source is shallowly embedded: the asynchronous model calls of
`src/lib/test-runner.ts` are abstracted as oracles (`Nat → Except JsError _`
for the transport layer, `Nat → ExecResult _` for whole attempt outcomes),
thrown JavaScript exceptions become `Except` values, and times are dropped
(every modelled duration is 0).  Machine numbers in this code path are small
counters and token counts, so `Nat`/`ℚ` model them exactly.
-/

set_option maxRecDepth 10000

/-- A Zod validation issue as recorded by `parseZodErrors`
(src/lib/test-runner.ts lines 93-99): field path, message, machine code. -/
structure ValidationError where
  path : List String
  message : String
  code : String
deriving DecidableEq, Repr

/-- A thrown JavaScript error value, as inspected by `isRateLimitError` and
the catch block of `runStrictAttempt`: whether it is an `Error` instance, its
message, an optional numeric `status` field, an optional `text` field, and
the issue list when it is a `ZodError` (`none` otherwise). -/
structure JsError where
  isErrorInstance : Bool
  message : String
  status : Option Nat
  text : Option String
  zodIssues : Option (List ValidationError)
deriving DecidableEq, Repr

deriving instance DecidableEq for Except

/-- `as` is a prefix of `bs` (character-list version of `String.startsWith`). -/
def charsStart : List Char → List Char → Bool
  | [], _ => true
  | _ :: _, [] => false
  | a :: as, b :: bs => a == b && charsStart as bs

/-- `needle` occurs as a contiguous substring of `hay`
(embedding of JavaScript `String.prototype.includes`). -/
def charsContain (needle : List Char) : List Char → Bool
  | [] => needle.isEmpty
  | c :: rest => charsStart needle (c :: rest) || charsContain needle rest

/-- JavaScript `hay.includes(needle)`. -/
def strIncludes (hay needle : String) : Bool :=
  charsContain needle.data hay.data

/-- JavaScript `s.toLowerCase()`, as a character list. -/
def lowerChars (s : String) : List Char :=
  s.data.map Char.toLower

/-- JavaScript `hay.toLowerCase().includes(needle)`. -/
def lowerIncludes (hay needle : String) : Bool :=
  charsContain needle.data (lowerChars hay)

/-- Constants of src/lib/test-runner.ts lines 102-104. -/
def RATE_LIMIT_DELAY_MS : Nat := 5000

def BACKOFF_BASE_MS : Nat := 5000

def BACKOFF_MAX_RETRIES : Nat := 4

/-- `isRateLimitError` (src/lib/test-runner.ts lines 110-121): an `Error`
whose lowercased message contains "429", "rate limit" or "too many requests",
or otherwise any object carrying a `status` field, exactly when that status
is 429. -/
def isRateLimitError (e : JsError) : Bool :=
  if e.isErrorInstance &&
      (lowerIncludes e.message "429" ||
       lowerIncludes e.message "rate limit" ||
       lowerIncludes e.message "too many requests") then
    true
  else
    match e.status with
    | some s => s == 429
    | none => false

/-- Placeholder for the `let lastError: unknown` initial value of
`withExponentialBackoff`; the final `throw lastError` (line 142) is
unreachable because the last loop iteration always rethrows. -/
def jsErrorDefault : JsError :=
  { isErrorInstance := false, message := "", status := none, text := none,
    zodIssues := none }

/-- The `withExponentialBackoff` loop (src/lib/test-runner.ts lines 123-143),
at loop counter `attempt` with `fuel` iterations still allowed (the loop body
runs for `attempt = 0 .. maxRetries`, so it starts with `maxRetries + 1`
fuel and the out-of-fuel branch models the unreachable final
`throw lastError`).  `fn i` is the outcome of the i-th invocation of the
wrapped thunk.  Returns the final outcome together with the list of backoff
delays slept, in order. -/
def backoffGo (fn : Nat → Except JsError α) (maxRetries : Nat) :
    Nat → Nat → Except JsError α × List Nat
  | 0, _ => (.error jsErrorDefault, [])
  | fuel + 1, attempt =>
    match fn attempt with
    | .ok v => (.ok v, [])
    | .error e =>
      if isRateLimitError e && decide (attempt < maxRetries) then
        let rest := backoffGo fn maxRetries fuel (attempt + 1)
        (rest.1, BACKOFF_BASE_MS * 2 ^ attempt :: rest.2)
      else
        (.error e, [])

/-- `withExponentialBackoff(fn, maxRetries)`: run the loop from attempt 0. -/
def withExponentialBackoff (fn : Nat → Except JsError α)
    (maxRetries : Nat := BACKOFF_MAX_RETRIES) : Except JsError α × List Nat :=
  backoffGo fn maxRetries (maxRetries + 1) 0

/-- Delays produced by `k` consecutive rate-limited attempts starting at
attempt number `a`: `BACKOFF_BASE_MS * 2 ^ a`, doubling each time. -/
def backoffDelaysFrom : Nat → Nat → List Nat
  | _, 0 => []
  | a, k + 1 => BACKOFF_BASE_MS * 2 ^ a :: backoffDelaysFrom (a + 1) k

/-- The delays produced by `k` consecutive rate-limited attempts starting at
attempt 0: base delay doubled at each successive retry. -/
def backoffDelays (k : Nat) : List Nat :=
  backoffDelaysFrom 0 k

/-- The value resolved by a successful `generateText` call: the text and the
token usage (the `usage` record may be absent). -/
structure GenTextResult where
  text : String
  usage : Option (Nat × Nat)
deriving DecidableEq, Repr

/-- The value resolved by a successful `generateObject` call: the object, its
pretty-printed JSON text (`JSON.stringify(result.object, null, 2)`), and the
token usage. -/
structure GenObjResult (α : Type) where
  object : α
  rendered : String
  usage : Option (Nat × Nat)
deriving DecidableEq, Repr

/-- Outcome of `extractJson` + `JSON.parse` + `schema.parse` on a raw model
response (the schema/prompt modules are external collaborators): either the
validated value, a thrown `ZodError` with its issue list, or a thrown
`SyntaxError` with its message. -/
inductive ValidateOutcome (α : Type) where
  | valid (v : α)
  | zodFail (issues : List ValidationError)
  | jsonFail (msg : String)
deriving DecidableEq, Repr

/-- The normalized result of one attempt executor call
(`{ success, data?, raw, errors?, tokens? }`). -/
structure ExecResult (α : Type) where
  success : Bool
  data : Option α
  raw : String
  errors : Option (List ValidationError)
  tokens : Option (Nat × Nat)
deriving DecidableEq, Repr

/-- `result.usage?.inputTokens || 0` / `outputTokens || 0`. -/
def usageTokens (usage : Option (Nat × Nat)) : Option (Nat × Nat) :=
  some (usage.getD (0, 0))

/-- `runNonStrictAttempt` (src/lib/test-runner.ts lines 148-211).  `gen i` is
the outcome of the i-th invocation of the `generateText` thunk handed to
`withExponentialBackoff`; `validate` embeds `extractJson`/`JSON.parse`/
`schema.parse` applied to the returned text.  A transport error surviving the
backoff wrapper is NOT caught here: the `try` block only guards parsing and
validation, so the error propagates (`.error`). -/
def runNonStrictAttempt (gen : Nat → Except JsError GenTextResult)
    (validate : String → ValidateOutcome α) :
    Except JsError (ExecResult α) :=
  match (withExponentialBackoff gen BACKOFF_MAX_RETRIES).1 with
  | .error e => .error e
  | .ok r =>
    match validate r.text with
    | .valid v =>
      .ok { success := true, data := some v, raw := r.text, errors := none,
            tokens := usageTokens r.usage }
    | .zodFail issues =>
      .ok { success := false, data := none, raw := r.text,
            errors := some issues, tokens := usageTokens r.usage }
    | .jsonFail msg =>
      .ok { success := false, data := none, raw := r.text,
            errors := some [⟨[], "Invalid JSON: " ++ msg, "invalid_json"⟩],
            tokens := usageTokens r.usage }

/-- `runStrictAttempt` (src/lib/test-runner.ts lines 216-271).  `gen i` is the
outcome of the i-th invocation of the `generateObject` thunk.  The whole body
is inside `try`/`catch`, so every error is converted into a failed result:
a `ZodError` keeps its issue list, anything else becomes a single
`api_error` entry. -/
def runStrictAttempt (gen : Nat → Except JsError (GenObjResult α)) :
    ExecResult α :=
  match (withExponentialBackoff gen BACKOFF_MAX_RETRIES).1 with
  | .ok r =>
    { success := true, data := some r.object, raw := r.rendered,
      errors := none, tokens := usageTokens r.usage }
  | .error e =>
    let rawText := e.text.getD ""
    match e.zodIssues with
    | some issues =>
      { success := false, data := none, raw := rawText,
        errors := some issues, tokens := none }
    | none =>
      let errorMessage := e.message
      { success := false, data := none,
        raw := if rawText ≠ "" then rawText else "Error: " ++ errorMessage,
        errors := some [⟨[], errorMessage, "api_error"⟩], tokens := none }

/-- `AttemptResult` (src/lib/storage.ts, re-exported to the runner): one
model call as recorded in a run.  Timestamps and prompt text are dropped from
the embedding; durations are modelled as 0. -/
structure AttemptResult where
  attemptNumber : Nat
  success : Bool
  durationMs : Nat
  inputTokens : Option Nat
  outputTokens : Option Nat
  rawResponse : String
  parsedResponse : Option Unit
  validationErrors : List ValidationError
  errorMessage : Option String
deriving DecidableEq, Repr

/-- `StepResult`: one stage of the 3-stage sequential pipeline. -/
structure StepResult where
  stepNumber : Nat
  stepName : String
  success : Bool
  attempts : List AttemptResult
deriving DecidableEq, Repr

/-- `RunResult`: one complete attempt to satisfy a scenario.  `steps` is
`none` for one-shot scenarios; the final response object is abstracted to
`Option Unit` (null vs non-null). -/
structure RunResult where
  runNumber : Nat
  success : Bool
  attempts : List AttemptResult
  steps : Option (List StepResult)
  totalDurationMs : Nat
  finalResponse : Option Unit
deriving DecidableEq, Repr

/-- The `AttemptResult` literal each scenario runner pushes after an attempt
(e.g. src/lib/test-runner.ts lines 336-348): `errorMessage` is always
`null`, `validationErrors` is `result.errors || []`, `parsedResponse` is
`result.success ? result.data : null`. -/
def mkAttemptResult (attemptNumber : Nat) (o : ExecResult Unit) :
    AttemptResult :=
  { attemptNumber := attemptNumber
    success := o.success
    durationMs := 0
    inputTokens := o.tokens.map (·.1)
    outputTokens := o.tokens.map (·.2)
    rawResponse := o.raw
    parsedResponse := if o.success then o.data else none
    validationErrors := o.errors.getD []
    errorMessage := none }

/-- The shared attempt/retry loop of all four scenario runners
(`for attempt = 1..maxRetries+1 { push attempt; if success break }`, e.g.
src/lib/test-runner.ts lines 291-381 and 563-642).  `oracle a` is the
executor outcome of attempt number `a` (1-based); `fuel` is the number of
loop iterations still allowed.  Returns the recorded attempts and the
`success` flag. -/
def attemptLoop (oracle : Nat → ExecResult Unit) :
    Nat → Nat → List AttemptResult × Bool
  | 0, _ => ([], false)
  | fuel + 1, attemptNum =>
    let o := oracle attemptNum
    let ar := mkAttemptResult attemptNum o
    if o.success then
      ([ar], true)
    else
      let rest := attemptLoop oracle fuel (attemptNum + 1)
      (ar :: rest.1, rest.2)

/-- One run of a one-shot scenario (the body of the `runNum` loop of
`runScenario1`/`runScenario2`, src/lib/test-runner.ts lines 285-398 and
416-530; the two differ only in which attempt executor and prompts feed the
oracle). -/
def oneShotRun (oracle : Nat → ExecResult Unit) (maxRetries runNum : Nat) :
    RunResult :=
  let r := attemptLoop oracle (maxRetries + 1) 1
  { runNumber := runNum
    success := r.2
    attempts := r.1
    steps := none
    totalDurationMs := 0
    finalResponse := if r.2 then some () else none }

/-- A one-shot scenario runner: `runsPerScenario` runs numbered from 1, each
with its own oracle. -/
def oneShotScenario (oracles : Nat → Nat → ExecResult Unit)
    (maxRetries runsPerScenario : Nat) : List RunResult :=
  (List.range runsPerScenario).map
    (fun i => oneShotRun (oracles (i + 1)) maxRetries (i + 1))

/-- One pipeline step of a sequential run (src/lib/test-runner.ts lines
555-645 etc.): the same attempt loop, recorded in a `StepResult`. -/
def runStep (stepNumber : Nat) (stepName : String)
    (oracle : Nat → ExecResult Unit) (maxRetries : Nat) : StepResult :=
  let r := attemptLoop oracle (maxRetries + 1) 1
  { stepNumber := stepNumber, stepName := stepName,
    success := r.2, attempts := r.1 }

/-- One run of a sequential scenario (the `try`-block body of the run loop of
`runScenario3`/`runScenario4`, src/lib/test-runner.ts lines 547-863 and
880-1196).  `oracle s a` is the executor outcome of attempt `a` of step `s`;
`mergeOk` is the outcome of `ResponseSchema.parse(mergeSequentialParts(...))`
(the schema module is an external collaborator).  A step exhausting its
retries throws (`if (!stepKResult) throw`), the merge-validation failure also
throws, and the surrounding `catch` swallows the error, leaving
`success=false`, `finalResponse=null` and whatever steps were pushed. -/
def sequentialRun (oracle : Nat → Nat → ExecResult Unit) (mergeOk : Bool)
    (maxRetries runNum : Nat) : RunResult :=
  let step1 := runStep 1 "Recommendation" (oracle 1) maxRetries
  if ¬ step1.success then
    { runNumber := runNum, success := false, attempts := [],
      steps := some [step1], totalDurationMs := 0, finalResponse := none }
  else
    let step2 := runStep 2 "Details" (oracle 2) maxRetries
    if ¬ step2.success then
      { runNumber := runNum, success := false, attempts := [],
        steps := some [step1, step2], totalDurationMs := 0,
        finalResponse := none }
    else
      let step3 := runStep 3 "AI Config" (oracle 3) maxRetries
      if ¬ step3.success then
        { runNumber := runNum, success := false, attempts := [],
          steps := some [step1, step2, step3], totalDurationMs := 0,
          finalResponse := none }
      else if mergeOk then
        { runNumber := runNum, success := true, attempts := [],
          steps := some [step1, step2, step3], totalDurationMs := 0,
          finalResponse := some () }
      else
        { runNumber := runNum, success := false, attempts := [],
          steps := some [step1, step2, step3], totalDurationMs := 0,
          finalResponse := none }

/-- A sequential scenario runner: every run is recorded and the loop always
continues to the next run (the per-run `catch` never rethrows). -/
def sequentialScenario (oracles : Nat → Nat → Nat → ExecResult Unit)
    (mergeOk : Nat → Bool) (maxRetries runsPerScenario : Nat) :
    List RunResult :=
  (List.range runsPerScenario).map
    (fun i => sequentialRun (oracles (i + 1)) (mergeOk (i + 1))
      maxRetries (i + 1))

/-- `ScenarioSummary` (src/lib/storage.ts): per-scenario statistics.  Rates
and averages are exact rationals. -/
structure ScenarioSummary where
  successRate : ℚ
  firstAttemptSuccessRate : ℚ
  afterRetry1SuccessRate : ℚ
  afterRetry2SuccessRate : ℚ
  afterRetry3SuccessRate : ℚ
  averageDurationMs : ℚ
  averageAttempts : ℚ
  averageAttemptsPerSuccess : ℚ
  averageTokensPerSuccess : ℚ
  totalTokensUsed : Nat
deriving DecidableEq, Repr

/-- Tokens consumed by one attempt, missing counts as 0. -/
def attemptTokens (a : AttemptResult) : Nat :=
  a.inputTokens.getD 0 + a.outputTokens.getD 0

/-- 0-based index of a step's successful attempt (the length of its attempt
list when no attempt succeeded). -/
def stepSuccIdx (s : StepResult) : Nat :=
  s.attempts.findIdx (·.success)

/-- 0-based index of a flat run's successful attempt. -/
def runSuccIdx (r : RunResult) : Nat :=
  r.attempts.findIdx (·.success)

/-- Number of attempts a run consumed: flat attempt-list length, or the sum
of the step attempt-list lengths for sequential runs. -/
def runAttemptCount (isSequential : Bool) (r : RunResult) : Nat :=
  if isSequential then
    ((r.steps.getD []).map (fun s => s.attempts.length)).sum
  else
    r.attempts.length

/-- Tokens consumed by a whole run (every attempt of every step). -/
def runTokens (isSequential : Bool) (r : RunResult) : Nat :=
  if isSequential then
    ((r.steps.getD []).map (fun s => (s.attempts.map attemptTokens).sum)).sum
  else
    (r.attempts.map attemptTokens).sum

/-- Whether a run counts toward the retry-depth-`d` numerator: the run
succeeded and — sequentially — every step's successful attempt index is at
most `d`, or — flat — the successful attempt index is at most `d`. -/
def succeededWithinRetries (isSequential : Bool) (d : Nat) (r : RunResult) :
    Bool :=
  r.success &&
    (if isSequential then
      (r.steps.getD []).all (fun s => stepSuccIdx s ≤ d)
    else
      runSuccIdx r ≤ d)

/-- Retry-depth-`d` success rate over `runs`. -/
def retryDepthRate (isSequential : Bool) (runs : List RunResult) (d : Nat) :
    ℚ :=
  100 * ((runs.filter (succeededWithinRetries isSequential d)).length : ℚ) /
    (runs.length : ℚ)

/-- Modelled from the spec: `calculateScenarioSummary(runs, isSequential)` of
src/lib/storage.ts, whose implementation file is not part of the sources
(only its unit tests, src/__tests__/storage.test.ts, and its callers are).
Definitions follow spec §4.4 — success rate, per-retry-depth rates, average
duration/attempts, per-success averages guarded against empty denominators,
total tokens, all-zero summary for an empty run list — except the sequential
retry-depth bucketing, where the spec's cumulative-sum wording contradicts
the repository's own unit tests (storage.test.ts lines 253-268): the tests
require a run to count at depth `d` exactly when every step succeeded within
`d` retries (i.e. the per-step maximum, not the sum, is at most `d`), and
this definition follows the tests. -/
def calculateScenarioSummary (runs : List RunResult)
    (isSequential : Bool := false) : ScenarioSummary :=
  if runs.length = 0 then
    { successRate := 0, firstAttemptSuccessRate := 0
      afterRetry1SuccessRate := 0, afterRetry2SuccessRate := 0
      afterRetry3SuccessRate := 0, averageDurationMs := 0
      averageAttempts := 0, averageAttemptsPerSuccess := 0
      averageTokensPerSuccess := 0, totalTokensUsed := 0 }
  else
    let n : ℚ := (runs.length : ℚ)
    let successfulRuns := runs.filter (·.success)
    let successCount := successfulRuns.length
    { successRate := 100 * (successCount : ℚ) / n
      firstAttemptSuccessRate := retryDepthRate isSequential runs 0
      afterRetry1SuccessRate := retryDepthRate isSequential runs 1
      afterRetry2SuccessRate := retryDepthRate isSequential runs 2
      afterRetry3SuccessRate := retryDepthRate isSequential runs 3
      averageDurationMs :=
        ((runs.map (fun r => r.totalDurationMs)).sum : ℚ) / n
      averageAttempts :=
        ((runs.map (runAttemptCount isSequential)).sum : ℚ) / n
      averageAttemptsPerSuccess :=
        if successCount = 0 then 0
        else ((successfulRuns.map (runAttemptCount isSequential)).sum : ℚ) /
          (successCount : ℚ)
      averageTokensPerSuccess :=
        if successCount = 0 then 0
        else ((successfulRuns.map (runTokens isSequential)).sum : ℚ) /
          (successCount : ℚ)
      totalTokensUsed := (runs.map (runTokens isSequential)).sum }

/-- `ScenarioResult`: the runs together with their derived summary. -/
structure ScenarioResult where
  runs : List RunResult
  summary : ScenarioSummary
deriving DecidableEq, Repr

/-- Scenarios 3 and 4 are sequential (src/lib/test-runner.ts line 1243). -/
def isSequentialScenario (s : Nat) : Bool :=
  s == 3 || s == 4

/-- Scenarios 2 and 4 are strict (src/lib/test-runner.ts line 1219). -/
def isStrictScenario (s : Nat) : Bool :=
  s == 2 || s == 4

/-- `runModelTests` scenario loop (src/lib/test-runner.ts lines 1218-1248),
after the model has been resolved: `supportsStrictMode` is the resolved
model's capability flag and `runsOf s` stands for the run list the scenario-s
runner produces.  A strict scenario is skipped (`continue`) when the model
denies strict mode; an out-of-range scenario number throws.  The result map
is keyed by `scenario.toString()`. -/
def runModelTests (supportsStrictMode : Bool)
    (runsOf : Nat → List RunResult) :
    List Nat → Except String (List (String × ScenarioResult))
  | [] => .ok []
  | s :: rest =>
    if isStrictScenario s && !supportsStrictMode then
      runModelTests supportsStrictMode runsOf rest
    else if s == 1 || s == 2 || s == 3 || s == 4 then
      match runModelTests supportsStrictMode runsOf rest with
      | .ok m =>
        .ok ((toString s,
          { runs := runsOf s
            summary := calculateScenarioSummary (runsOf s)
              (isSequentialScenario s) }) :: m)
      | .error err => .error err
    else
      .error ("Invalid scenario: " ++ toString s)

/-- Status of an entry of the process-wide `activeRuns` map
(src/lib/active-runs.ts). -/
inductive RunStatus where
  | running
  | complete
  | cancelled
  | error
deriving DecidableEq, Repr

/-- The `activeRuns` table, `Map<string, ActiveRun>` projected to the status
of each entry, in insertion order. -/
abbrev RunTable : Type := List (String × RunStatus)

/-- Number of entries with status `running`
(`Array.from(activeRuns.values()).filter(r => r.status === 'running')`). -/
def countRunning (t : RunTable) : Nat :=
  (t.filter (fun p => p.2 == RunStatus.running)).length

/-- JavaScript `Map.set`: replace the value at an existing key, else append a
new entry. -/
def mapSet (t : RunTable) (k : String) (v : RunStatus) : RunTable :=
  if t.any (fun p => p.1 == k) then
    t.map (fun p => if p.1 == k then (p.1, v) else p)
  else
    t ++ [(k, v)]

/-- `activeRun.status = s` for an existing entry (the terminal transitions of
`runTestsInBackground`, src/app/api/run/route.ts lines 388 and 396); a
missing id leaves the table unchanged. -/
def setStatus (t : RunTable) (k : String) (v : RunStatus) : RunTable :=
  t.map (fun p => if p.1 == k then (p.1, v) else p)

/-- `activeRuns.delete(runId)` (the delayed garbage collection,
src/app/api/run/route.ts lines 392 and 400). -/
def deleteRun (t : RunTable) (k : String) : RunTable :=
  t.filter (fun p => p.1 != k)

/-- The request-dependent data the POST handler branches on before inserting
a new entry: whether any requested model is valid with a key, and whether any
requested scenario number is in range. -/
structure PostRequest where
  hasValidModels : Bool
  hasValidScenarios : Bool
  newRunId : String
deriving DecidableEq, Repr

/-- The POST handler of src/app/api/run/route.ts (lines 44-174) as a table
transition plus HTTP status: a request while any entry is `running` is
rejected with 409 before anything is validated or written; invalid
models/scenarios yield 400 without writing; otherwise a new entry with
status `running` is inserted and 200 returned. -/
def postRoute (t : RunTable) (req : PostRequest) : RunTable × Nat :=
  if 0 < countRunning t then
    (t, 409)
  else if !req.hasValidModels then
    (t, 400)
  else if !req.hasValidScenarios then
    (t, 400)
  else
    (mapSet t req.newRunId RunStatus.running, 200)

/-- Tables reachable from the empty `activeRuns` map through the operations
the code performs: starting a run (POST), marking an existing run terminal
(complete / cancelled / error — never `running`), and garbage-collecting an
entry. -/
inductive ReachableTable : RunTable → Prop where
  | init : ReachableTable []
  | post {t : RunTable} (req : PostRequest) :
      ReachableTable t → ReachableTable (postRoute t req).1
  | finish {t : RunTable} (k : String) (v : RunStatus) :
      v ≠ RunStatus.running → ReachableTable t →
      ReachableTable (setStatus t k v)
  | gc {t : RunTable} (k : String) :
      ReachableTable t → ReachableTable (deleteRun t k)

theorem backoffDelaysFrom_zero (k : Nat) :
    backoffDelaysFrom 0 k = backoffDelays k :=
  rfl

theorem backoffDelaysFrom_succ (a k : Nat) :
    backoffDelaysFrom a (k + 1) =
      BACKOFF_BASE_MS * 2 ^ a :: backoffDelaysFrom (a + 1) k :=
  rfl

theorem backoffDelaysFrom_getD (a k i : Nat) (h : i < k) :
    (backoffDelaysFrom a k).getD i 0 = BACKOFF_BASE_MS * 2 ^ (a + i) := by
  induction k generalizing a i with
  | zero => omega
  | succ k ih =>
    cases i with
    | zero => simp [backoffDelaysFrom]
    | succ i =>
      have hrec := ih (a + 1) i (by omega)
      have harith : a + 1 + i = a + (i + 1) := by omega
      simpa [backoffDelaysFrom, harith] using hrec

theorem backoffGo_skip (fn : Nat → Except JsError α) (m : Nat) :
    ∀ (k fuel attempt : Nat),
      (∀ i, i < k → ∃ e, fn (attempt + i) = .error e ∧ isRateLimitError e = true) →
      attempt + k ≤ m → k ≤ fuel →
      backoffGo fn m fuel attempt =
        ((backoffGo fn m (fuel - k) (attempt + k)).1,
         backoffDelaysFrom attempt k ++ (backoffGo fn m (fuel - k) (attempt + k)).2) := by
  intro k
  induction k with
  | zero =>
    intro fuel attempt _ _ _
    simp [backoffDelaysFrom]
  | succ k ih =>
    intro fuel attempt hrl hm hf
    obtain ⟨e, he, herl⟩ := hrl 0 (Nat.succ_pos k)
    simp only [Nat.add_zero] at he
    obtain ⟨f, rfl⟩ : ∃ f, fuel = f + 1 := ⟨fuel - 1, by omega⟩
    have hlt : attempt < m := by omega
    have step : backoffGo fn m (f + 1) attempt =
        ((backoffGo fn m f (attempt + 1)).1,
         BACKOFF_BASE_MS * 2 ^ attempt :: (backoffGo fn m f (attempt + 1)).2) := by
      simp [backoffGo, he, herl, hlt]
    have ihh := ih f (attempt + 1)
      (fun i hi => by
        obtain ⟨e2, he2, h2⟩ := hrl (i + 1) (by omega)
        exact ⟨e2, by rw [← he2]; ring_nf, h2⟩)
      (by omega) (by omega)
    rw [step, ihh, backoffDelaysFrom_succ]
    have harith : attempt + 1 + k = attempt + (k + 1) := by omega
    have hfuel : f - k = f + 1 - (k + 1) := by omega
    rw [harith, hfuel]
    simp

theorem backoffGo_stop_ok (fn : Nat → Except JsError α) (m f a : Nat) (v : α)
    (h : fn a = .ok v) : backoffGo fn m (f + 1) a = (.ok v, []) := by
  simp [backoffGo, h]

theorem backoffGo_stop_err (fn : Nat → Except JsError α) (m f a : Nat) (e : JsError)
    (h : fn a = .error e) (hstop : isRateLimitError e = false ∨ ¬ a < m) :
    backoffGo fn m (f + 1) a = (.error e, []) := by
  rcases hstop with h1 | h1 <;> simp [backoffGo, h, h1]

/-- C6.  For every function handed to `withExponentialBackoff`: while each
invocation throws an error `isRateLimitError` classifies as a rate-limit
signal, the call is retried after a delay of `BACKOFF_BASE_MS * 2 ^ i`
(the base delay, doubled on each successive retry — conjuncts 4 and 5); when
an invocation then throws a non-rate-limit error it is rethrown at once with
no further delay (conjunct 1); a success is returned (conjunct 2); and once
the ceiling of `maxRetries` retries is exhausted the last error is rethrown
(conjunct 3). -/
theorem c6_backoff_policy (fn : Nat → Except JsError α) (m k : Nat)
    (hk : ∀ i, i < k → ∃ ei, fn i = .error ei ∧ isRateLimitError ei = true)
    (hkm : k ≤ m) :
    (∀ e2, fn k = .error e2 → isRateLimitError e2 = false →
        withExponentialBackoff fn m = (.error e2, backoffDelays k)) ∧
    (∀ v, fn k = .ok v → withExponentialBackoff fn m = (.ok v, backoffDelays k)) ∧
    (∀ e2, k = m → fn m = .error e2 → isRateLimitError e2 = true →
        withExponentialBackoff fn m = (.error e2, backoffDelays m)) ∧
    (∀ i, 0 < k → i + 1 < k →
        (backoffDelays k).getD (i + 1) 0 = 2 * (backoffDelays k).getD i 0) ∧
    (0 < k → (backoffDelays k).getD 0 0 = BACKOFF_BASE_MS) := by
  have hskip := backoffGo_skip fn m k (m + 1) 0
    (fun i hi => by simpa using hk i hi) (by omega) (by omega)
  simp only [Nat.zero_add, backoffDelaysFrom_zero] at hskip
  have hfuel : ∃ f, m + 1 - k = f + 1 := ⟨m - k, by omega⟩
  obtain ⟨f, hf⟩ := hfuel
  refine ⟨?_, ?_, ?_, ?_, ?_⟩
  · intro e2 he2 herl
    rw [withExponentialBackoff, hskip, hf, backoffGo_stop_err fn m f k e2 he2 (Or.inl herl)]
    simp
  · intro v hv
    rw [withExponentialBackoff, hskip, hf, backoffGo_stop_ok fn m f k v hv]
    simp
  · intro e2 hkm2 he2 herl
    rw [withExponentialBackoff, hskip, hf,
      backoffGo_stop_err fn m f k e2 (by rw [hkm2]; exact he2) (Or.inr (by omega))]
    simp [hkm2]
  · intro i _ hik
    rw [backoffDelays, backoffDelaysFrom_getD 0 k (i + 1) hik,
      backoffDelaysFrom_getD 0 k i (by omega)]
    ring
  · intro hk0
    rw [backoffDelays, backoffDelaysFrom_getD 0 k 0 hk0]
    simp

/-- Concrete data for the C6 witness: two rate-limited errors, then a fatal
transport error. -/
def rlErr : JsError :=
  { isErrorInstance := true, message := "429 Too Many Requests",
    status := some 429, text := none, zodIssues := none }

def fatalErr : JsError :=
  { isErrorInstance := true, message := "connection reset",
    status := none, text := none, zodIssues := none }

def c6fn : Nat → Except JsError GenTextResult
  | 0 => .error rlErr
  | 1 => .error rlErr
  | _ => .error fatalErr

/-- C6 witness: with two rate-limited calls followed by a fatal error, the
backoff wrapper sleeps 5000 ms then 10000 ms and rethrows the fatal error. -/
theorem c6_backoff_policy_witness :
    withExponentialBackoff c6fn BACKOFF_MAX_RETRIES =
      (.error fatalErr, [5000, 10000]) := by
  have h := (c6_backoff_policy c6fn BACKOFF_MAX_RETRIES 2
    (fun i hi => by
      interval_cases i <;> exact ⟨rlErr, by decide, by decide⟩)
    (by decide)).1 fatalErr (by decide) (by decide)
  rw [h]
  decide

theorem attemptLoop_succ_pos (oracle : Nat → ExecResult Unit) (f n : Nat)
    (hs : (oracle n).success = true) :
    attemptLoop oracle (f + 1) n = ([mkAttemptResult n (oracle n)], true) := by
  simp [attemptLoop, hs]

theorem attemptLoop_succ_neg (oracle : Nat → ExecResult Unit) (f n : Nat)
    (hs : (oracle n).success = false) :
    attemptLoop oracle (f + 1) n =
      (mkAttemptResult n (oracle n) :: (attemptLoop oracle f (n + 1)).1,
       (attemptLoop oracle f (n + 1)).2) := by
  simp [attemptLoop, hs]

theorem attemptLoop_length_le (oracle : Nat → ExecResult Unit) :
    ∀ fuel n, (attemptLoop oracle fuel n).1.length ≤ fuel := by
  intro fuel
  induction fuel with
  | zero => intro n; simp [attemptLoop]
  | succ f ih =>
    intro n
    by_cases hs : (oracle n).success
    · rw [attemptLoop_succ_pos oracle f n hs]
      simp
    · rw [attemptLoop_succ_neg oracle f n (by simpa using hs)]
      simpa using ih (n + 1)

theorem attemptLoop_length_pos (oracle : Nat → ExecResult Unit) (f n : Nat) :
    0 < (attemptLoop oracle (f + 1) n).1.length := by
  by_cases hs : (oracle n).success
  · rw [attemptLoop_succ_pos oracle f n hs]; simp
  · rw [attemptLoop_succ_neg oracle f n (by simpa using hs)]; simp

theorem attemptLoop_attemptNumber (oracle : Nat → ExecResult Unit) :
    ∀ fuel n i a, (attemptLoop oracle fuel n).1[i]? = some a →
      a.attemptNumber = n + i := by
  intro fuel
  induction fuel with
  | zero => intro n i a h; simp [attemptLoop] at h
  | succ f ih =>
    intro n i a h
    by_cases hs : (oracle n).success
    · rw [attemptLoop_succ_pos oracle f n hs] at h
      cases i with
      | zero =>
        simp at h
        subst h
        simp [mkAttemptResult]
      | succ j => simp at h
    · rw [attemptLoop_succ_neg oracle f n (by simpa using hs)] at h
      cases i with
      | zero =>
        simp at h
        subst h
        simp [mkAttemptResult]
      | succ j =>
        simp only [List.getElem?_cons_succ] at h
        have := ih (n + 1) j a h
        omega

theorem attemptLoop_early_fail (oracle : Nat → ExecResult Unit) :
    ∀ fuel n i a, (attemptLoop oracle fuel n).1[i]? = some a →
      i + 1 < (attemptLoop oracle fuel n).1.length → a.success = false := by
  intro fuel
  induction fuel with
  | zero => intro n i a h _; simp [attemptLoop] at h
  | succ f ih =>
    intro n i a h hlt
    by_cases hs : (oracle n).success
    · rw [attemptLoop_succ_pos oracle f n hs] at h hlt
      simp at hlt
    · rw [attemptLoop_succ_neg oracle f n (by simpa using hs)] at h hlt
      cases i with
      | zero =>
        simp at h
        subst h
        simpa [mkAttemptResult] using hs
      | succ j =>
        simp only [List.getElem?_cons_succ] at h
        exact ih (n + 1) j a h (by simpa using Nat.lt_of_succ_lt_succ hlt)

theorem attemptLoop_success_eq_any (oracle : Nat → ExecResult Unit) :
    ∀ fuel n, (attemptLoop oracle fuel n).2 =
      (attemptLoop oracle fuel n).1.any (fun a => a.success) := by
  intro fuel
  induction fuel with
  | zero => intro n; simp [attemptLoop]
  | succ f ih =>
    intro n
    by_cases hs : (oracle n).success
    · rw [attemptLoop_succ_pos oracle f n hs]
      simp [mkAttemptResult, hs]
    · rw [attemptLoop_succ_neg oracle f n (by simpa using hs)]
      simp only [List.any_cons]
      rw [← ih (n + 1)]
      simp [mkAttemptResult, hs]

theorem attemptLoop_all_fail (oracle : Nat → ExecResult Unit) :
    ∀ fuel n, (∀ a, n ≤ a → a < n + fuel → (oracle a).success = false) →
      (attemptLoop oracle fuel n).2 = false ∧
      (attemptLoop oracle fuel n).1.length = fuel := by
  intro fuel
  induction fuel with
  | zero => intro n _; simp [attemptLoop]
  | succ f ih =>
    intro n hall
    have hn : (oracle n).success = false := hall n (Nat.le_refl n) (by omega)
    have hrec := ih (n + 1) (fun a h1 h2 => hall a (by omega) (by omega))
    rw [attemptLoop_succ_neg oracle f n hn]
    simp [hrec.1, hrec.2]

/-- C5.  For every run of a one-shot scenario and every step of a sequential
scenario: the attempt loop records at least one and at most `maxRetries + 1`
attempts, numbered consecutively from 1; every attempt before the last
recorded one has `success = false` (the loop stops immediately after the
first success, so at most the final recorded attempt succeeds); and the
run's `success` flag is true exactly when some recorded attempt succeeded.
The step loop of the sequential runners is the identical loop. -/
theorem c5_attempt_loop_shape (oracle : Nat → ExecResult Unit)
    (maxRetries runNum stepNumber : Nat) (stepName : String) :
    (oneShotRun oracle maxRetries runNum).attempts.length ≤ maxRetries + 1 ∧
    0 < (oneShotRun oracle maxRetries runNum).attempts.length ∧
    (∀ i a, ((oneShotRun oracle maxRetries runNum).attempts)[i]? = some a →
      a.attemptNumber = i + 1) ∧
    (∀ i a, ((oneShotRun oracle maxRetries runNum).attempts)[i]? = some a →
      i + 1 < (oneShotRun oracle maxRetries runNum).attempts.length →
      a.success = false) ∧
    ((oneShotRun oracle maxRetries runNum).success = true ↔
      ∃ a ∈ (oneShotRun oracle maxRetries runNum).attempts,
        a.success = true) ∧
    (runStep stepNumber stepName oracle maxRetries).attempts =
      (oneShotRun oracle maxRetries runNum).attempts ∧
    (runStep stepNumber stepName oracle maxRetries).success =
      (oneShotRun oracle maxRetries runNum).success := by
  refine ⟨?_, ?_, ?_, ?_, ?_, rfl, rfl⟩
  · exact attemptLoop_length_le oracle (maxRetries + 1) 1
  · exact attemptLoop_length_pos oracle maxRetries 1
  · intro i a h
    have := attemptLoop_attemptNumber oracle (maxRetries + 1) 1 i a h
    omega
  · intro i a h hlt
    exact attemptLoop_early_fail oracle (maxRetries + 1) 1 i a h hlt
  · show (attemptLoop oracle (maxRetries + 1) 1).2 = true ↔ _
    rw [attemptLoop_success_eq_any oracle (maxRetries + 1) 1]
    exact List.any_eq_true

/-- A failing executor outcome used in concrete instances. -/
def failExec : ExecResult Unit :=
  { success := false, data := none, raw := "not json",
    errors := some [⟨["summary"], "Required", "invalid_type"⟩],
    tokens := some (80, 40) }

/-- A succeeding executor outcome used in concrete instances. -/
def okExec : ExecResult Unit :=
  { success := true, data := some (), raw := "{}", errors := none,
    tokens := some (100, 50) }

/-- A concrete oracle: attempt 1 fails validation, attempt 2 succeeds. -/
def c5oracle : Nat → ExecResult Unit
  | 1 => failExec
  | _ => okExec

/-- C5 witness: with `maxRetries = 3` and an oracle failing once then
succeeding, the first recorded attempt is a failure and the second carries
attempt number 2. -/
theorem c5_attempt_loop_shape_witness :
    (mkAttemptResult 1 failExec).success = false ∧
    (mkAttemptResult 2 okExec).attemptNumber = 1 + 1 :=
  ⟨(c5_attempt_loop_shape c5oracle 3 1 1 "Recommendation").2.2.2.1 0
      (mkAttemptResult 1 failExec) (by decide) (by decide),
   (c5_attempt_loop_shape c5oracle 3 1 1 "Recommendation").2.2.1 1
      (mkAttemptResult 2 okExec) (by decide)⟩

/-- C3.  When all three steps of a sequential run individually succeed but
the merged object fails the full-response-schema validation (`mergeOk =
false`), the recorded `RunResult` has `success = false` and
`finalResponse = null` while every recorded `StepResult` keeps
`success = true`; and the scenario loop records one `RunResult` per run
regardless (the failure is caught inside the loop, never aborting the
scenario). -/
theorem c3_merge_validation_failure (oracle : Nat → Nat → ExecResult Unit)
    (maxRetries runNum : Nat)
    (h1 : (runStep 1 "Recommendation" (oracle 1) maxRetries).success = true)
    (h2 : (runStep 2 "Details" (oracle 2) maxRetries).success = true)
    (h3 : (runStep 3 "AI Config" (oracle 3) maxRetries).success = true) :
    (sequentialRun oracle false maxRetries runNum).success = false ∧
    (sequentialRun oracle false maxRetries runNum).finalResponse = none ∧
    (sequentialRun oracle false maxRetries runNum).steps =
      some [runStep 1 "Recommendation" (oracle 1) maxRetries,
            runStep 2 "Details" (oracle 2) maxRetries,
            runStep 3 "AI Config" (oracle 3) maxRetries] ∧
    (∀ st ∈ ((sequentialRun oracle false maxRetries runNum).steps).getD [],
      st.success = true) ∧
    (∀ (oracles : Nat → Nat → Nat → ExecResult Unit) (mergeOk : Nat → Bool)
      (n : Nat), (sequentialScenario oracles mergeOk maxRetries n).length = n) := by
  have hrun : sequentialRun oracle false maxRetries runNum =
      { runNumber := runNum, success := false, attempts := [],
        steps := some [runStep 1 "Recommendation" (oracle 1) maxRetries,
                       runStep 2 "Details" (oracle 2) maxRetries,
                       runStep 3 "AI Config" (oracle 3) maxRetries],
        totalDurationMs := 0, finalResponse := none } := by
    simp [sequentialRun, h1, h2, h3]
  refine ⟨by rw [hrun], by rw [hrun], by rw [hrun], ?_, ?_⟩
  · rw [hrun]
    intro st hst
    simp only [Option.getD_some, List.mem_cons, List.mem_singleton,
      List.not_mem_nil, or_false] at hst
    rcases hst with rfl | rfl | rfl
    · exact h1
    · exact h2
    · exact h3
  · intro oracles mergeOk n
    simp [sequentialScenario]

/-- An oracle for which every step succeeds at the first attempt. -/
def c3oracle : Nat → Nat → ExecResult Unit := fun _ _ => okExec

/-- C3 witness: with every step succeeding first try but merge validation
failing, the run fails with no final response while its three steps are all
marked successful. -/
theorem c3_merge_validation_failure_witness :
    (sequentialRun c3oracle false 3 1).success = false ∧
    (sequentialRun c3oracle false 3 1).finalResponse = none ∧
    (runStep 1 "Recommendation" (c3oracle 1) 3).success = true :=
  ⟨(c3_merge_validation_failure c3oracle 3 1 (by decide) (by decide)
      (by decide)).1,
   (c3_merge_validation_failure c3oracle 3 1 (by decide) (by decide)
      (by decide)).2.1,
   (c3_merge_validation_failure c3oracle 3 1 (by decide) (by decide)
      (by decide)).2.2.2.1 (runStep 1 "Recommendation" (c3oracle 1) 3)
      (by decide)⟩

/-- C4.  In a sequential run, if step k exhausts all `maxRetries + 1`
attempts without success (and every earlier step succeeded), then the
recorded `RunResult` contains exactly the `StepResult`s for steps 1
through k, has `success = false` and `finalResponse = null`; and the
scenario loop still records one `RunResult` per run (it continues with the
next run rather than aborting). -/
theorem c4_step_exhaustion (oracle : Nat → Nat → ExecResult Unit)
    (maxRetries runNum : Nat) (mergeOk : Bool) :
    ((∀ a, 1 ≤ a → a < maxRetries + 2 → (oracle 1 a).success = false) →
      (sequentialRun oracle mergeOk maxRetries runNum).steps =
        some [runStep 1 "Recommendation" (oracle 1) maxRetries] ∧
      (runStep 1 "Recommendation" (oracle 1) maxRetries).attempts.length =
        maxRetries + 1 ∧
      (sequentialRun oracle mergeOk maxRetries runNum).success = false ∧
      (sequentialRun oracle mergeOk maxRetries runNum).finalResponse = none) ∧
    ((runStep 1 "Recommendation" (oracle 1) maxRetries).success = true →
      (∀ a, 1 ≤ a → a < maxRetries + 2 → (oracle 2 a).success = false) →
      (sequentialRun oracle mergeOk maxRetries runNum).steps =
        some [runStep 1 "Recommendation" (oracle 1) maxRetries,
              runStep 2 "Details" (oracle 2) maxRetries] ∧
      (runStep 2 "Details" (oracle 2) maxRetries).attempts.length =
        maxRetries + 1 ∧
      (sequentialRun oracle mergeOk maxRetries runNum).success = false ∧
      (sequentialRun oracle mergeOk maxRetries runNum).finalResponse = none) ∧
    ((runStep 1 "Recommendation" (oracle 1) maxRetries).success = true →
      (runStep 2 "Details" (oracle 2) maxRetries).success = true →
      (∀ a, 1 ≤ a → a < maxRetries + 2 → (oracle 3 a).success = false) →
      (sequentialRun oracle mergeOk maxRetries runNum).steps =
        some [runStep 1 "Recommendation" (oracle 1) maxRetries,
              runStep 2 "Details" (oracle 2) maxRetries,
              runStep 3 "AI Config" (oracle 3) maxRetries] ∧
      (runStep 3 "AI Config" (oracle 3) maxRetries).attempts.length =
        maxRetries + 1 ∧
      (sequentialRun oracle mergeOk maxRetries runNum).success = false ∧
      (sequentialRun oracle mergeOk maxRetries runNum).finalResponse = none) ∧
    (∀ (oracles : Nat → Nat → Nat → ExecResult Unit) (mo : Nat → Bool)
      (n : Nat), (sequentialScenario oracles mo maxRetries n).length = n) := by
  refine ⟨?_, ?_, ?_, ?_⟩
  · intro hfail
    have hall := attemptLoop_all_fail (oracle 1) (maxRetries + 1) 1
      (fun a ha1 ha2 => hfail a ha1 (by omega))
    have hs1 : (runStep 1 "Recommendation" (oracle 1) maxRetries).success =
        false := hall.1
    refine ⟨?_, hall.2, ?_, ?_⟩ <;> simp [sequentialRun, hs1]
  · intro h1 hfail
    have hall := attemptLoop_all_fail (oracle 2) (maxRetries + 1) 1
      (fun a ha1 ha2 => hfail a ha1 (by omega))
    have hs2 : (runStep 2 "Details" (oracle 2) maxRetries).success = false :=
      hall.1
    refine ⟨?_, hall.2, ?_, ?_⟩ <;> simp [sequentialRun, h1, hs2]
  · intro h1 h2 hfail
    have hall := attemptLoop_all_fail (oracle 3) (maxRetries + 1) 1
      (fun a ha1 ha2 => hfail a ha1 (by omega))
    have hs3 : (runStep 3 "AI Config" (oracle 3) maxRetries).success =
        false := hall.1
    refine ⟨?_, hall.2, ?_, ?_⟩ <;> simp [sequentialRun, h1, h2, hs3]
  · intro oracles mo n
    simp [sequentialScenario]

/-- An oracle whose step 2 always fails while other steps succeed. -/
def c4oracle : Nat → Nat → ExecResult Unit
  | 2, _ => failExec
  | _, _ => okExec

/-- C4 witness: with step 2 exhausting its four attempts, the run records
exactly steps 1 and 2, step 2 shows 4 attempts, and the run fails with no
final response. -/
theorem c4_step_exhaustion_witness :
    (sequentialRun c4oracle true 3 1).steps =
      some [runStep 1 "Recommendation" (c4oracle 1) 3,
            runStep 2 "Details" (c4oracle 2) 3] ∧
    (runStep 2 "Details" (c4oracle 2) 3).attempts.length = 3 + 1 ∧
    (sequentialRun c4oracle true 3 1).success = false ∧
    (sequentialRun c4oracle true 3 1).finalResponse = none :=
  (c4_step_exhaustion c4oracle 3 1 true).2.1 (by decide)
    (fun a _ _ => rfl)

theorem attemptLoop_errorMessage (oracle : Nat → ExecResult Unit) :
    ∀ fuel n, ∀ a ∈ (attemptLoop oracle fuel n).1, a.errorMessage = none := by
  intro fuel
  induction fuel with
  | zero => intro n a ha; simp [attemptLoop] at ha
  | succ f ih =>
    intro n a ha
    by_cases hs : (oracle n).success
    · rw [attemptLoop_succ_pos oracle f n hs] at ha
      simp only [List.mem_singleton] at ha
      subst ha
      rfl
    · rw [attemptLoop_succ_neg oracle f n (by simpa using hs)] at ha
      simp only [List.mem_cons] at ha
      rcases ha with rfl | ha
      · rfl
      · exact ih (n + 1) a ha

theorem sequentialRun_steps_cases (oracle : Nat → Nat → ExecResult Unit)
    (mergeOk : Bool) (m runNum : Nat) :
    ∀ st ∈ ((sequentialRun oracle mergeOk m runNum).steps).getD [],
      st = runStep 1 "Recommendation" (oracle 1) m ∨
      st = runStep 2 "Details" (oracle 2) m ∨
      st = runStep 3 "AI Config" (oracle 3) m := by
  intro st hst
  by_cases h1 : (runStep 1 "Recommendation" (oracle 1) m).success = true
  · by_cases h2 : (runStep 2 "Details" (oracle 2) m).success = true
    · by_cases h3 : (runStep 3 "AI Config" (oracle 3) m).success = true
      · cases mergeOk <;> simp [sequentialRun, h1, h2, h3] at hst <;> tauto
      · simp [sequentialRun, h1, h2, h3] at hst
        tauto
    · simp [sequentialRun, h1, h2] at hst
      tauto
  · simp [sequentialRun, h1] at hst
    tauto

/-- C10.  Every `AttemptResult` recorded by the scenario runners — in the
flat attempt list of the one-shot runners and in every step of the
sequential runners — has `errorMessage = null`: failure information lives
only in the `success` flag and `validationErrors` list. -/
theorem c10_errorMessage_null (oracle : Nat → ExecResult Unit)
    (oracle2 : Nat → Nat → ExecResult Unit) (mergeOk : Bool)
    (maxRetries runNum : Nat) :
    (∀ a ∈ (oneShotRun oracle maxRetries runNum).attempts,
      a.errorMessage = none) ∧
    (∀ st ∈ ((sequentialRun oracle2 mergeOk maxRetries runNum).steps).getD [],
      ∀ a ∈ st.attempts, a.errorMessage = none) := by
  constructor
  · intro a ha
    exact attemptLoop_errorMessage oracle (maxRetries + 1) 1 a ha
  · intro st hst a ha
    rcases sequentialRun_steps_cases oracle2 mergeOk maxRetries runNum st hst
      with rfl | rfl | rfl <;>
      exact attemptLoop_errorMessage _ (maxRetries + 1) 1 a ha

/-- C10 witness: the failed first attempt recorded by a concrete one-shot
run has a null error message. -/
theorem c10_errorMessage_null_witness :
    (mkAttemptResult 1 failExec).errorMessage = none :=
  (c10_errorMessage_null c5oracle c4oracle true 3 1).1
    (mkAttemptResult 1 failExec) (by decide)

/-- A non-rate-limit transport error. -/
def transportErr : JsError :=
  { isErrorInstance := true, message := "fetch failed", status := none,
    text := none, zodIssues := none }

/-- A transport layer that always throws `transportErr`. -/
def c2genText : Nat → Except JsError GenTextResult :=
  fun _ => .error transportErr

/-- A constrained-generation transport layer that always throws
`transportErr`. -/
def c2genObj : Nat → Except JsError (GenObjResult Unit) :=
  fun _ => .error transportErr

/-- A validation stage that accepts anything. -/
def c2validate : String → ValidateOutcome Unit :=
  fun _ => .valid ()

/-- C2 counterexample: when the underlying `generateText` call throws a
non-rate-limit transport error, the NON-strict attempt executor does not
return a `success = false` / `api_error` result — the error propagates out
of `runNonStrictAttempt` (its `try` block guards only parsing and
validation). -/
theorem c2_counterexample :
    isRateLimitError transportErr = false ∧
    runNonStrictAttempt c2genText c2validate = .error transportErr := by
  constructor
  · decide
  · decide

/-- C2 (amended).  The two modes handle a non-rate-limit transport error
asymmetrically: the strict executor (whose whole body is inside
`try`/`catch`) converts it into a result with `success = false` and a single
`api_error` entry, while the non-strict executor lets the error propagate
out of the attempt function uncaught. -/
theorem c2_transport_error_asymmetry (e : JsError)
    (gen : Nat → Except JsError GenTextResult)
    (gen2 : Nat → Except JsError (GenObjResult Unit))
    (validate : String → ValidateOutcome Unit)
    (he : isRateLimitError e = false)
    (h1 : gen 0 = .error e) (h2 : gen2 0 = .error e)
    (hz : e.zodIssues = none) :
    runNonStrictAttempt gen validate = .error e ∧
    (runStrictAttempt gen2).success = false ∧
    (runStrictAttempt gen2).errors = some [⟨[], e.message, "api_error"⟩] := by
  have hb1 : (withExponentialBackoff gen BACKOFF_MAX_RETRIES).1 = .error e := by
    rw [withExponentialBackoff, backoffGo_stop_err gen BACKOFF_MAX_RETRIES
      BACKOFF_MAX_RETRIES 0 e h1 (Or.inl he)]
  have hb2 : (withExponentialBackoff gen2 BACKOFF_MAX_RETRIES).1 =
      .error e := by
    rw [withExponentialBackoff, backoffGo_stop_err gen2 BACKOFF_MAX_RETRIES
      BACKOFF_MAX_RETRIES 0 e h2 (Or.inl he)]
  refine ⟨?_, ?_, ?_⟩
  · simp [runNonStrictAttempt, hb1]
  · simp [runStrictAttempt, hb2, hz]
  · simp [runStrictAttempt, hb2, hz]

/-- C2 amended-claim witness: at the concrete transport error, the
non-strict executor propagates while the strict executor records a single
`api_error`. -/
theorem c2_transport_error_asymmetry_witness :
    runNonStrictAttempt c2genText c2validate = .error transportErr ∧
    (runStrictAttempt c2genObj).success = false ∧
    (runStrictAttempt c2genObj).errors =
      some [⟨[], "fetch failed", "api_error"⟩] :=
  c2_transport_error_asymmetry transportErr c2genText c2genObj c2validate
    (by decide) rfl rfl rfl

/-- C9.  For every result the attempt executors return (in non-strict mode,
whenever a result is returned at all): the error list is empty exactly when
the attempt succeeded — a Zod failure carries its (non-empty, by the Zod
library contract, taken as hypotheses `hzv`/`hz2`) issue list, a JSON parse
failure a single `invalid_json` entry, a strict-mode transport failure a
single `api_error` entry — and the recorded `AttemptResult` stores
`result.errors || []`. -/
theorem c9_error_list_invariant (gen : Nat → Except JsError GenTextResult)
    (validate : String → ValidateOutcome Unit)
    (gen2 : Nat → Except JsError (GenObjResult Unit)) (n : Nat)
    (hzv : ∀ raw issues, validate raw = .zodFail issues → issues ≠ [])
    (hz2 : ∀ e issues,
      (withExponentialBackoff gen2 BACKOFF_MAX_RETRIES).1 = .error e →
      e.zodIssues = some issues → issues ≠ []) :
    (∀ res : ExecResult Unit, runNonStrictAttempt gen validate = .ok res →
      ((res.success = true → res.errors.getD [] = []) ∧
       (res.success = false → res.errors.getD [] ≠ []) ∧
       (mkAttemptResult n res).validationErrors = res.errors.getD [])) ∧
    (((runStrictAttempt gen2).success = true →
        (runStrictAttempt gen2).errors.getD [] = []) ∧
     ((runStrictAttempt gen2).success = false →
        (runStrictAttempt gen2).errors.getD [] ≠ []) ∧
     (mkAttemptResult n (runStrictAttempt gen2)).validationErrors =
        (runStrictAttempt gen2).errors.getD []) ∧
    (∀ r msg, (withExponentialBackoff gen BACKOFF_MAX_RETRIES).1 = .ok r →
      validate r.text = .jsonFail msg →
      runNonStrictAttempt gen validate = .ok
        { success := false, data := none, raw := r.text,
          errors := some [⟨[], "Invalid JSON: " ++ msg, "invalid_json"⟩],
          tokens := usageTokens r.usage }) ∧
    (∀ r issues, (withExponentialBackoff gen BACKOFF_MAX_RETRIES).1 = .ok r →
      validate r.text = .zodFail issues →
      runNonStrictAttempt gen validate = .ok
        { success := false, data := none, raw := r.text,
          errors := some issues, tokens := usageTokens r.usage }) ∧
    (∀ e, (withExponentialBackoff gen2 BACKOFF_MAX_RETRIES).1 = .error e →
      e.zodIssues = none →
      (runStrictAttempt gen2).errors = some [⟨[], e.message, "api_error"⟩]) := by
  refine ⟨?_, ?_, ?_, ?_, ?_⟩
  · intro res hres
    cases hbk : (withExponentialBackoff gen BACKOFF_MAX_RETRIES).1 with
    | error e =>
      simp [runNonStrictAttempt, hbk] at hres
    | ok r =>
      cases hv : validate r.text with
      | valid v =>
        simp [runNonStrictAttempt, hbk, hv] at hres
        subst hres
        simp [mkAttemptResult]
      | zodFail issues =>
        simp [runNonStrictAttempt, hbk, hv] at hres
        subst hres
        refine ⟨by simp, ?_, by simp [mkAttemptResult]⟩
        intro _
        simpa using hzv r.text issues hv
      | jsonFail msg =>
        simp [runNonStrictAttempt, hbk, hv] at hres
        subst hres
        simp [mkAttemptResult]
  · cases hbk : (withExponentialBackoff gen2 BACKOFF_MAX_RETRIES).1 with
    | ok r =>
      simp [runStrictAttempt, hbk, mkAttemptResult]
    | error e =>
      cases hez : e.zodIssues with
      | some issues =>
        simp only [runStrictAttempt, hbk, hez]
        refine ⟨by simp, ?_, by simp [mkAttemptResult]⟩
        intro _
        simpa using hz2 e issues hbk hez
      | none =>
        simp [runStrictAttempt, hbk, hez, mkAttemptResult]
  · intro r msg hbk hv
    simp [runNonStrictAttempt, hbk, hv]
  · intro r issues hbk hv
    simp [runNonStrictAttempt, hbk, hv]
  · intro e hbk hez
    simp [runStrictAttempt, hbk, hez]

/-- C9 witness: the strict executor's failed result at a concrete transport
error carries a non-empty error list. -/
theorem c9_error_list_invariant_witness :
    (runStrictAttempt c2genObj).errors.getD [] ≠ [] :=
  (c9_error_list_invariant c2genText c2validate c2genObj 1
    (fun raw issues h => by simp [c2validate] at h)
    (fun e issues hb hz => by
      have hval : (withExponentialBackoff c2genObj BACKOFF_MAX_RETRIES).1 =
          .error transportErr := by decide
      rw [hval] at hb
      cases hb
      simp [transportErr] at hz)).2.1.2.1 (by decide)

/-- The keys of the table, in order. -/
def tableKeys (t : RunTable) : List String :=
  t.map (fun p => p.1)

theorem countRunning_cons (p : String × RunStatus) (t : RunTable) :
    countRunning (p :: t) =
      (if p.2 == RunStatus.running then 1 else 0) + countRunning t := by
  by_cases h : p.2 == RunStatus.running <;>
    simp [countRunning, List.filter_cons, h] <;> omega

theorem countRunning_append (t₁ t₂ : RunTable) :
    countRunning (t₁ ++ t₂) = countRunning t₁ + countRunning t₂ := by
  simp [countRunning, List.filter_append]

theorem tableKeys_replace (t : RunTable) (k : String) (v : RunStatus) :
    tableKeys (t.map (fun p => if p.1 == k then (p.1, v) else p)) =
      tableKeys t := by
  induction t with
  | nil => rfl
  | cons p t ih =>
    by_cases h : p.1 == k <;> simp only [List.map_cons, tableKeys, h] <;>
      simp_all [tableKeys]

theorem replace_id_of_no_key (t : RunTable) (k : String) (v : RunStatus)
    (h : ∀ p ∈ t, (p.1 == k) = false) :
    t.map (fun p => if p.1 == k then (p.1, v) else p) = t := by
  induction t with
  | nil => rfl
  | cons p t ih =>
    have hp := h p (List.mem_cons_self p t)
    simp only [List.map_cons, hp, Bool.false_eq_true, if_false]
    rw [ih (fun q hq => h q (List.mem_cons_of_mem p hq))]

theorem countRunning_replace_le (t : RunTable) (k : String)
    (hnd : (tableKeys t).Nodup) :
    countRunning (t.map (fun p =>
      if p.1 == k then (p.1, RunStatus.running) else p)) ≤
      countRunning t + 1 := by
  induction t with
  | nil => simp [countRunning]
  | cons p t ih =>
    simp only [tableKeys, List.map_cons, List.nodup_cons] at hnd
    have hih : countRunning (t.map (fun p =>
        if p.1 == k then (p.1, RunStatus.running) else p)) ≤
        countRunning t + 1 := ih (by simpa [tableKeys] using hnd.2)
    by_cases h : (p.1 == k) = true
    · have hk : ∀ q ∈ t, (q.1 == k) = false := by
        intro q hq
        cases hb : (q.1 == k) with
        | false => rfl
        | true =>
          exfalso
          apply hnd.1
          have : q.1 = p.1 := by
            rw [eq_of_beq hb, eq_of_beq h]
          exact this ▸ List.mem_map_of_mem (fun r => r.1) hq
      rw [List.map_cons, replace_id_of_no_key t k RunStatus.running hk,
        if_pos h, countRunning_cons, countRunning_cons]
      by_cases hp : (p.2 == RunStatus.running) = true <;> simp [hp] <;> omega
    · rw [List.map_cons, if_neg (by simpa using h), countRunning_cons,
        countRunning_cons]
      omega

theorem countRunning_setStatus_le (t : RunTable) (k : String) (v : RunStatus)
    (hv : v ≠ RunStatus.running) :
    countRunning (setStatus t k v) ≤ countRunning t := by
  have hvb : (v == RunStatus.running) = false := by
    cases v <;> simp_all
  induction t with
  | nil => simp [setStatus, countRunning]
  | cons p t ih =>
    have hih : countRunning (t.map (fun p =>
        if p.1 == k then (p.1, v) else p)) ≤ countRunning t := ih
    by_cases h : (p.1 == k) = true
    · show countRunning ((if p.1 == k then (p.1, v) else p) ::
        t.map (fun p => if p.1 == k then (p.1, v) else p)) ≤ _
      rw [if_pos h, countRunning_cons, countRunning_cons]
      simp only [hvb, Bool.false_eq_true, if_false]
      omega
    · show countRunning ((if p.1 == k then (p.1, v) else p) ::
        t.map (fun p => if p.1 == k then (p.1, v) else p)) ≤ _
      rw [if_neg h, countRunning_cons, countRunning_cons]
      omega

theorem countRunning_delete_le (t : RunTable) (k : String) :
    countRunning (deleteRun t k) ≤ countRunning t :=
  List.Sublist.length_le
    (List.Sublist.filter _ (List.filter_sublist t))

/-- The invariant the orchestration maintains on the `activeRuns` table:
distinct keys and at most one `running` entry. -/
def goodTable (t : RunTable) : Prop :=
  (tableKeys t).Nodup ∧ countRunning t ≤ 1

theorem reachable_good (t : RunTable) (h : ReachableTable t) : goodTable t := by
  induction h with
  | init => exact ⟨List.nodup_nil, by simp [countRunning]⟩
  | @post t req _ ih =>
    rcases ih with ⟨hnd, hcnt⟩
    unfold postRoute
    split_ifs with hrun hm hs
    · exact ⟨hnd, hcnt⟩
    · exact ⟨hnd, hcnt⟩
    · exact ⟨hnd, hcnt⟩
    · have hzero : countRunning t = 0 := by omega
      show goodTable (mapSet t req.newRunId RunStatus.running)
      unfold mapSet
      by_cases hany : t.any (fun p => p.1 == req.newRunId) = true
      · rw [if_pos hany]
        refine ⟨?_, ?_⟩
        · rw [tableKeys_replace t req.newRunId RunStatus.running]
          exact hnd
        · have := countRunning_replace_le t req.newRunId hnd
          omega
      · rw [if_neg hany]
        have hnone : ∀ p ∈ t, (p.1 == req.newRunId) = false := by
          intro p hp
          cases hb : (p.1 == req.newRunId) with
          | false => rfl
          | true => exact absurd (List.any_eq_true.mpr ⟨p, hp, hb⟩) hany
        have hkn : req.newRunId ∉ tableKeys t := by
          intro hmem
          rcases List.mem_map.mp hmem with ⟨p, hp, hpk⟩
          have := hnone p hp
          rw [hpk] at this
          simp at this
        refine ⟨?_, ?_⟩
        · have hkeys : tableKeys (t ++ [(req.newRunId, RunStatus.running)]) =
              tableKeys t ++ [req.newRunId] := by
            simp [tableKeys]
          rw [hkeys]
          refine List.Nodup.append hnd (List.nodup_singleton _) ?_
          intro x hx hx1
          simp only [List.mem_singleton] at hx1
          exact hkn (hx1 ▸ hx)
        · rw [countRunning_append, hzero]
          simp [countRunning]
  | @finish t k v hv _ ih =>
    rcases ih with ⟨hnd, hcnt⟩
    refine ⟨?_, Nat.le_trans (countRunning_setStatus_le t k v hv) hcnt⟩
    have hk : tableKeys (setStatus t k v) = tableKeys t :=
      tableKeys_replace t k v
    rw [hk]
    exact hnd
  | @gc t k _ ih =>
    rcases ih with ⟨hnd, hcnt⟩
    refine ⟨?_, Nat.le_trans (countRunning_delete_le t k) hcnt⟩
    have hsub : List.Sublist (tableKeys (deleteRun t k)) (tableKeys t) := by
      show List.Sublist ((t.filter (fun p => p.1 != k)).map (fun p => p.1))
        (t.map (fun p => p.1))
      exact List.Sublist.map (fun p => p.1) (List.filter_sublist t)
    exact hnd.sublist hsub

/-- C7.  On every table reachable from the empty `activeRuns` map through
the code's operations, at most one entry has status `running`; and a POST
arriving while any entry is `running` is answered 409 with the table
unchanged (no entry created, none mutated), so the table is never written
by two concurrent runs. -/
theorem c7_single_running_invariant (t : RunTable) (req : PostRequest)
    (h : ReachableTable t) :
    countRunning t ≤ 1 ∧
    (0 < countRunning t → postRoute t req = (t, 409)) := by
  refine ⟨(reachable_good t h).2, ?_⟩
  intro hpos
  unfold postRoute
  simp [hpos]

/-- A first start request. -/
def demoReq : PostRequest :=
  { hasValidModels := true, hasValidScenarios := true, newRunId := "run-1" }

/-- A second start request arriving while the first run is active. -/
def demoReq2 : PostRequest :=
  { hasValidModels := true, hasValidScenarios := true, newRunId := "run-2" }

/-- The table after the first run was started. -/
def demoTable : RunTable := (postRoute [] demoReq).1

/-- C7 witness: a second start request against the table holding one running
entry is rejected with 409 and the table is unchanged. -/
theorem c7_single_running_invariant_witness :
    postRoute demoTable demoReq2 = (demoTable, 409) :=
  (c7_single_running_invariant demoTable demoReq2
    (ReachableTable.post demoReq ReachableTable.init)).2 (by decide)

theorem runModelTests_cons_skip (runsOf : Nat → List RunResult) (s : Nat)
    (rest : List Nat) (h : isStrictScenario s = true) :
    runModelTests false runsOf (s :: rest) =
      runModelTests false runsOf rest := by
  simp [runModelTests, h]

theorem runModelTests_cons_add (runsOf : Nat → List RunResult) (s : Nat)
    (rest : List Nat) (m : List (String × ScenarioResult))
    (h1 : isStrictScenario s = false)
    (h2 : (s == 1 || s == 2 || s == 3 || s == 4) = true)
    (h3 : runModelTests false runsOf rest = .ok m) :
    runModelTests false runsOf (s :: rest) =
      .ok ((toString s,
        { runs := runsOf s
          summary := calculateScenarioSummary (runsOf s)
            (isSequentialScenario s) }) :: m) := by
  simp only [Bool.or_eq_true, beq_iff_eq] at h2
  rcases h2 with ((rfl | rfl) | rfl) | rfl <;>
    simp_all [runModelTests, isStrictScenario]

theorem runModelTests_no_strict_keys (runsOf : Nat → List RunResult)
    (scenarios : List Nat)
    (hval : ∀ s ∈ scenarios, s = 1 ∨ s = 2 ∨ s = 3 ∨ s = 4) :
    ∃ m, runModelTests false runsOf scenarios = .ok m ∧
      m.lookup "2" = none ∧ m.lookup "4" = none ∧
      (∀ s ∈ scenarios, (s = 1 ∨ s = 3) →
        (m.lookup (toString s)).isSome = true) := by
  induction scenarios with
  | nil => exact ⟨[], rfl, rfl, rfl, by simp⟩
  | cons s rest ih =>
    obtain ⟨m, hm, h2, h4, hpres⟩ :=
      ih (fun x hx => hval x (List.mem_cons_of_mem s hx))
    rcases hval s (List.mem_cons_self s rest) with rfl | rfl | rfl | rfl
    · refine ⟨(toString 1,
        { runs := runsOf 1
          summary := calculateScenarioSummary (runsOf 1)
            (isSequentialScenario 1) }) :: m,
        runModelTests_cons_add runsOf 1 rest m (by decide) (by decide) hm,
        ?_, ?_, ?_⟩
      · have hb : ("2" == toString 1) = false := by decide
        rw [List.lookup_cons, hb]
        exact h2
      · have hb : ("4" == toString 1) = false := by decide
        rw [List.lookup_cons, hb]
        exact h4
      · intro x hx hxc
        rcases List.mem_cons.mp hx with rfl | hx2
        · rw [List.lookup_cons_self]
          rfl
        · rcases hxc with rfl | rfl
          · rw [List.lookup_cons_self]
            rfl
          · have hb : (toString 3 == toString 1) = false := by decide
            rw [List.lookup_cons, hb]
            exact hpres 3 hx2 (Or.inr rfl)
    · refine ⟨m, ?_, h2, h4, ?_⟩
      · rw [runModelTests_cons_skip runsOf 2 rest (by decide)]
        exact hm
      · intro x hx hxc
        rcases List.mem_cons.mp hx with rfl | hx2
        · omega
        · exact hpres x hx2 hxc
    · refine ⟨(toString 3,
        { runs := runsOf 3
          summary := calculateScenarioSummary (runsOf 3)
            (isSequentialScenario 3) }) :: m,
        runModelTests_cons_add runsOf 3 rest m (by decide) (by decide) hm,
        ?_, ?_, ?_⟩
      · have hb : ("2" == toString 3) = false := by decide
        rw [List.lookup_cons, hb]
        exact h2
      · have hb : ("4" == toString 3) = false := by decide
        rw [List.lookup_cons, hb]
        exact h4
      · intro x hx hxc
        rcases List.mem_cons.mp hx with rfl | hx2
        · rw [List.lookup_cons_self]
          rfl
        · rcases hxc with rfl | rfl
          · have hb : (toString 1 == toString 3) = false := by decide
            rw [List.lookup_cons, hb]
            exact hpres 1 hx2 (Or.inl rfl)
          · rw [List.lookup_cons_self]
            rfl
    · refine ⟨m, ?_, h2, h4, ?_⟩
      · rw [runModelTests_cons_skip runsOf 4 rest (by decide)]
        exact hm
      · intro x hx hxc
        rcases List.mem_cons.mp hx with rfl | hx2
        · omega
        · exact hpres x hx2 hxc

/-- C8.  When a model's capability flag denies strict mode, `runModelTests`
produces no entry at all for a requested strict scenario (2 or 4) — the key
is absent from the result map — while requested non-strict scenarios (1, 3)
still produce entries. -/
theorem c8_strict_scenarios_skipped (runsOf : Nat → List RunResult)
    (scenarios : List Nat)
    (hval : ∀ s ∈ scenarios, s = 1 ∨ s = 2 ∨ s = 3 ∨ s = 4) :
    ∃ m, runModelTests false runsOf scenarios = .ok m ∧
      (∀ s ∈ scenarios, (s = 2 ∨ s = 4) → m.lookup (toString s) = none) ∧
      (∀ s ∈ scenarios, (s = 1 ∨ s = 3) →
        (m.lookup (toString s)).isSome = true) := by
  obtain ⟨m, hm, h2, h4, hpres⟩ :=
    runModelTests_no_strict_keys runsOf scenarios hval
  refine ⟨m, hm, ?_, hpres⟩
  intro s _ hsc
  rcases hsc with rfl | rfl
  · exact h2
  · exact h4

/-- C8 witness: requesting all four scenarios against a strict-incapable
model yields a result map with no "2" entry but a "1" entry. -/
theorem c8_strict_scenarios_skipped_witness :
    ∃ m, runModelTests false (fun _ => []) [1, 2, 3, 4] = .ok m ∧
      m.lookup (toString 2) = none ∧
      (m.lookup (toString 1)).isSome = true := by
  obtain ⟨m, hm, hskip, hpres⟩ :=
    c8_strict_scenarios_skipped (fun _ => []) [1, 2, 3, 4] (by norm_num)
  exact ⟨m, hm, hskip 2 (by norm_num) (Or.inl rfl),
    hpres 1 (by norm_num) (Or.inl rfl)⟩

/-- The mock attempt of src/__tests__/storage.test.ts lines 72-84 (all mock
attempts carry `attemptNumber` 1, 1000 ms and default 100/50 tokens). -/
def mockAttempt (success : Bool) (inTok : Nat := 100) (outTok : Nat := 50) :
    AttemptResult :=
  { attemptNumber := 1, success := success, durationMs := 1000,
    inputTokens := some inTok, outputTokens := some outTok,
    rawResponse := "mock response",
    parsedResponse := if success then some () else none,
    validationErrors := [], errorMessage := none }

/-- The mock flat run of storage.test.ts lines 86-92. -/
def mockRun (attempts : List AttemptResult) : RunResult :=
  { runNumber := 1, success := attempts.any (fun a => a.success),
    attempts := attempts, steps := none, totalDurationMs := 5000,
    finalResponse := if attempts.any (fun a => a.success) then some ()
      else none }

/-- The mock step of storage.test.ts lines 200-210. -/
def mockStep (n : Nat) (attempts : List AttemptResult) : StepResult :=
  { stepNumber := n, stepName := "Step " ++ toString n,
    success := attempts.any (fun a => a.success), attempts := attempts }

/-- The mock sequential run of storage.test.ts lines 212-219. -/
def mockSeqRun (steps : List StepResult) : RunResult :=
  { runNumber := 1, success := steps.all (fun s => s.success),
    attempts := [], steps := some steps, totalDurationMs := 5000,
    finalResponse := if steps.all (fun s => s.success) then some ()
      else none }

/-- The run list of the "should calculate correct success rates" test
(storage.test.ts lines 112-121). -/
def storageTestFlatRuns : List RunResult :=
  [ mockRun [mockAttempt true],
    mockRun [mockAttempt false, mockAttempt true],
    mockRun [mockAttempt false, mockAttempt false],
    mockRun [mockAttempt false, mockAttempt false, mockAttempt true] ]

/-- The single sequential run of the "multiple retries" test
(storage.test.ts lines 253-268): steps take 3, 2 and 1 attempts. -/
def storageTestSeqRun : RunResult :=
  mockSeqRun
    [ mockStep 1 [mockAttempt false, mockAttempt false, mockAttempt true],
      mockStep 2 [mockAttempt false, mockAttempt true],
      mockStep 3 [mockAttempt true] ]

/-- The modelled aggregator reproduces the repository's unit tests on empty
input (storage.test.ts lines 94-109). -/
theorem storageTest_empty :
    calculateScenarioSummary [] = 
      { successRate := 0, firstAttemptSuccessRate := 0
        afterRetry1SuccessRate := 0, afterRetry2SuccessRate := 0
        afterRetry3SuccessRate := 0, averageDurationMs := 0
        averageAttempts := 0, averageAttemptsPerSuccess := 0
        averageTokensPerSuccess := 0, totalTokensUsed := 0 } :=
  rfl

/-- The modelled aggregator reproduces the repository's flat success-rate
test (storage.test.ts lines 111-130). -/
theorem storageTest_flat_rates :
    (calculateScenarioSummary storageTestFlatRuns).successRate = 75 ∧
    (calculateScenarioSummary storageTestFlatRuns).firstAttemptSuccessRate
      = 25 ∧
    (calculateScenarioSummary storageTestFlatRuns).afterRetry1SuccessRate
      = 50 ∧
    (calculateScenarioSummary storageTestFlatRuns).afterRetry2SuccessRate
      = 75 ∧
    (calculateScenarioSummary storageTestFlatRuns).afterRetry3SuccessRate
      = 75 := by
  refine ⟨?_, ?_, ?_, ?_, ?_⟩ <;>
    norm_num [calculateScenarioSummary, storageTestFlatRuns, mockRun,
      mockAttempt, retryDepthRate, succeededWithinRetries, runSuccIdx,
      List.filter, List.findIdx, List.findIdx.go]

/-- The modelled aggregator reproduces the repository's token/average tests
(storage.test.ts lines 132-178). -/
theorem storageTest_flat_averages :
    (calculateScenarioSummary
      [ mockRun [mockAttempt true 100 50],
        mockRun [mockAttempt false 80 40, mockAttempt true 120 60] ]
      ).totalTokensUsed = 450 ∧
    (calculateScenarioSummary
      [ mockRun [mockAttempt true], mockRun [mockAttempt false,
        mockAttempt true] ]).averageDurationMs = 5000 ∧
    (calculateScenarioSummary
      [ mockRun [mockAttempt true], mockRun [mockAttempt false,
        mockAttempt true] ]).averageAttempts = 3 / 2 ∧
    (calculateScenarioSummary
      [ mockRun [mockAttempt true],
        mockRun [mockAttempt false, mockAttempt true],
        mockRun [mockAttempt false, mockAttempt false] ]
      ).averageAttemptsPerSuccess = 3 / 2 ∧
    (calculateScenarioSummary
      [ mockRun [mockAttempt true 100 50],
        mockRun [mockAttempt false 50 25, mockAttempt true 100 50],
        mockRun [mockAttempt false 200 100] ]
      ).averageTokensPerSuccess = 375 / 2 := by
  refine ⟨?_, ?_, ?_, ?_, ?_⟩ <;>
    norm_num [calculateScenarioSummary, mockRun, mockAttempt,
      runAttemptCount, runTokens, attemptTokens, List.filter]

/-- The modelled aggregator reproduces the repository's sequential tests
(storage.test.ts lines 221-314), in particular the "multiple retries" case
pinning per-step retry-depth bucketing: afterRetry1 = 0 and
afterRetry2 = 100 for steps consuming (3, 2, 1) attempts. -/
theorem storageTest_sequential :
    (calculateScenarioSummary [storageTestSeqRun] true).successRate = 100 ∧
    (calculateScenarioSummary [storageTestSeqRun] true
      ).firstAttemptSuccessRate = 0 ∧
    (calculateScenarioSummary [storageTestSeqRun] true
      ).afterRetry1SuccessRate = 0 ∧
    (calculateScenarioSummary [storageTestSeqRun] true
      ).afterRetry2SuccessRate = 100 ∧
    (calculateScenarioSummary
      [ mockSeqRun
        [ mockStep 1 [mockAttempt false, mockAttempt true],
          mockStep 2 [mockAttempt true],
          mockStep 3 [mockAttempt false, mockAttempt false,
            mockAttempt true] ] ] true).averageAttempts = 6 ∧
    (calculateScenarioSummary
      [ mockSeqRun
        [ mockStep 1 [mockAttempt true],
          mockStep 2 [mockAttempt false, mockAttempt false],
          mockStep 3 [mockAttempt false] ] ] true
      ).averageAttemptsPerSuccess = 0 := by
  refine ⟨?_, ?_, ?_, ?_, ?_, ?_⟩ <;>
    norm_num [calculateScenarioSummary, storageTestSeqRun, mockSeqRun,
      mockStep, mockAttempt, retryDepthRate, succeededWithinRetries,
      stepSuccIdx, runAttemptCount, List.filter, List.findIdx,
      List.findIdx.go]

/-- Sum across steps of the 0-based successful attempt index — the claim's
cumulative reading of retry depth. -/
def sumStepSuccIdx (r : RunResult) : Nat :=
  (((r.steps).getD []).map stepSuccIdx).sum

/-- Maximum across steps of the 0-based successful attempt index — the
per-step reading the repository's unit tests pin down. -/
def maxStepSuccIdx (r : RunResult) : Nat :=
  (((r.steps).getD []).map stepSuccIdx).foldr max 0

/-- C1 counterexample: at the repository's own unit-test input (steps
consuming 3, 2 and 1 attempts, all succeeding), the cumulative sum of the
per-step successful attempt indices is 3 > 2, so the claim's sum semantics
predicts the run counts toward no `afterRetry2` numerator (rate 0); but the
aggregator — as pinned by storage.test.ts lines 253-268 — reports
`afterRetry2SuccessRate = 100`. -/
theorem c1_counterexample :
    (calculateScenarioSummary [storageTestSeqRun] true
      ).afterRetry2SuccessRate = 100 ∧
    sumStepSuccIdx storageTestSeqRun = 3 ∧
    100 * (([storageTestSeqRun].filter (fun r =>
        r.success && decide (sumStepSuccIdx r ≤ 2))).length : ℚ) /
      (([storageTestSeqRun] : List RunResult).length : ℚ) = 0 := by
  refine ⟨?_, by decide, ?_⟩
  · norm_num [calculateScenarioSummary, storageTestSeqRun, mockSeqRun,
      mockStep, mockAttempt, retryDepthRate, succeededWithinRetries,
      stepSuccIdx, List.filter, List.findIdx, List.findIdx.go]
  · norm_num [storageTestSeqRun, mockSeqRun, mockStep, mockAttempt,
      sumStepSuccIdx, stepSuccIdx, List.filter, List.findIdx,
      List.findIdx.go]

theorem foldr_max_le_iff (l : List Nat) (d : Nat) :
    l.foldr max 0 ≤ d ↔ ∀ x ∈ l, x ≤ d := by
  induction l with
  | nil => simp
  | cons a l ih => simp [Nat.max_le, ih]

/-- Projection of the summary's retry-depth-`d` field. -/
def afterRetryRate (s : ScenarioSummary) : Nat → ℚ
  | 0 => s.firstAttemptSuccessRate
  | 1 => s.afterRetry1SuccessRate
  | 2 => s.afterRetry2SuccessRate
  | 3 => s.afterRetry3SuccessRate
  | _ => 0

/-- C1 (amended).  For every non-empty list of sequential runs and every
retry depth d ∈ {0,1,2,3}, the aggregator counts a run toward the
`afterRetryD` numerator exactly when the run is marked successful and the
MAXIMUM across its steps of the step's 0-based successful attempt index is
at most d (every step succeeded within d retries) — per-step semantics, not
the cumulative sum; a run not marked successful counts toward no
numerator. -/
theorem c1_afterRetry_perStepMax (runs : List RunResult) (d : Nat)
    (hne : runs ≠ []) (hd : d ≤ 3) :
    afterRetryRate (calculateScenarioSummary runs true) d =
      100 * ((runs.filter (fun r =>
        r.success && decide (maxStepSuccIdx r ≤ d))).length : ℚ) /
      (runs.length : ℚ) := by
  have hlen : ¬ runs.length = 0 := by
    simpa using fun h => hne (List.length_eq_zero.mp h)
  have hfilter : ∀ d2 : Nat, runs.filter (succeededWithinRetries true d2) =
      runs.filter (fun r => r.success && decide (maxStepSuccIdx r ≤ d2)) := by
    intro d2
    apply List.filter_congr
    intro r _
    unfold succeededWithinRetries
    simp only [if_true]
    congr 1
    rw [Bool.eq_iff_iff]
    simp [List.all_eq_true, maxStepSuccIdx, foldr_max_le_iff]
  interval_cases d <;>
    simp only [afterRetryRate, calculateScenarioSummary, hlen, if_false,
      ite_false, retryDepthRate, hfilter]

/-- C1 amended-claim witness: at the repository's unit-test input and depth
2, the rate equals the per-step-max count formula (both are 100). -/
theorem c1_afterRetry_perStepMax_witness :
    afterRetryRate (calculateScenarioSummary [storageTestSeqRun] true) 2 =
      100 * (([storageTestSeqRun].filter (fun r =>
        r.success && decide (maxStepSuccIdx r ≤ 2))).length : ℚ) /
      (([storageTestSeqRun] : List RunResult).length : ℚ) :=
  c1_afterRetry_perStepMax [storageTestSeqRun] 2 (by simp) (by norm_num)
